import Mathlib

/-!
Verification development for the fastyr-ai-chat-backend repository.

The definitions below are a shallow embedding, in Lean, of the Python code
under `src/`:

* `src/security.py`   — `SecurityManager` (sanitization, validation,
  rate limiting, suspicion scoring);
* `src/tools.py`      — `ChatbotTools` (tool registry, `calculate`,
  `execute_tool`);
* `src/llm_integration.py` — `LLMIntegration.process_message` (the
  two-round tool protocol);
* `src/chatbot_orchestrator.py` — `ChatbotOrchestrator.process_message`
  (per-turn persistence);
* `src/main.py` (`/chat`) and `src/websocket_chat.py` — the two entry
  paths.

Strings are modelled as `List Char` internally, wrapped into `String` at
the top level.  Python `re` operations are modelled by a small executable
regex engine covering exactly the constructs appearing in the source's
patterns (case-insensitive literals, single-character classes, lazy and
greedy stars); `re.sub`'s leftmost, non-overlapping scan is modelled by
`subAll`.  Whitespace classes model the ASCII part of Python's `\s` /
`str.strip`, which coincides with Python on the ASCII inputs examined here.
-/

namespace Chat

/-- ASCII whitespace, the characters matched by Python's `\s` and stripped
by `str.strip` on ASCII text: space, tab, newline, carriage return,
vertical tab, form feed. -/
def pyIsSpace (c : Char) : Bool :=
  c = ' ' || c = '\t' || c = '\n' || c = '\r' || c = '\x0b' || c = '\x0c'

/-- Python's `\w` on ASCII text: letters, digits, underscore. -/
def pyIsWord (c : Char) : Bool :=
  ('a' ≤ c && c ≤ 'z') || ('A' ≤ c && c ≤ 'Z') || ('0' ≤ c && c ≤ '9') || c = '_'

/-- Python's `.` (without DOTALL): any character except newline. -/
def reDot (c : Char) : Bool := c ≠ '\n'

/-- ASCII lower-casing, for `re.IGNORECASE` literal comparison. -/
def lowerC (c : Char) : Char := c.toLower

/-- Regular expressions, restricted to the constructs used by the
patterns in `src/security.py` and `src/tools.py`: literals (compared
case-insensitively, modelling `re.IGNORECASE`; every literal in the
source's patterns is caseless-invariant or lower case), one-character
classes, concatenation, lazy star `X*?` over a class, and greedy star
`X*` over a class.  `X+` is encoded as `cls X` followed by `star X`. -/
inductive RE : Type
  | lit : List Char → RE
  | cls : (Char → Bool) → RE
  | seq : RE → RE → RE
  | lazyStar : (Char → Bool) → RE
  | greedyStar : (Char → Bool) → RE

/-- Case-insensitive literal match at the head of the input; returns the
remainder on success. -/
def litMatch : List Char → List Char → Option (List Char)
  | [], s => some s
  | _ :: _, [] => none
  | p :: ps, c :: cs => if lowerC p = lowerC c then litMatch ps cs else none

/-- Lazy star over a class `p`, in continuation style: try the
continuation first, then consume one `p`-character and retry (Python's
`*?`). -/
def starLazy (p : Char → Bool) : List Char → (List Char → Option (List Char)) →
    Option (List Char)
  | [], k => k []
  | c :: rest, k =>
    match k (c :: rest) with
    | some r => some r
    | none => if p c then starLazy p rest k else none

/-- Greedy star over a class `p`, in continuation style: consume as many
`p`-characters as possible, backtracking toward shorter matches (Python's
`*`). -/
def starGreedy (p : Char → Bool) : List Char → (List Char → Option (List Char)) →
    Option (List Char)
  | [], k => k []
  | c :: rest, k =>
    if p c then
      match starGreedy p rest k with
      | some r => some r
      | none => k (c :: rest)
    else k (c :: rest)

/-- Backtracking matcher in continuation style.  `matchM re s k` tries to
match `re` at the head of `s` and passes the remainder to `k`; the overall
result is the remainder after the whole match chain, mirroring the
backtracking search of Python's `re` engine. -/
def matchM : RE → List Char → (List Char → Option (List Char)) → Option (List Char)
  | .lit l, s, k =>
    match litMatch l s with
    | some rest => k rest
    | none => none
  | .cls p, s, k =>
    match s with
    | [] => none
    | c :: rest => if p c then k rest else none
  | .seq a b, s, k => matchM a s (fun s1 => matchM b s1 k)
  | .lazyStar p, s, k => starLazy p s k
  | .greedyStar p, s, k => starGreedy p s k

/-- Does `re` match at the head of `s`?  On success, the remainder after
the (engine-preferred) match. -/
def matchHere (re : RE) (s : List Char) : Option (List Char) :=
  matchM re s some

/-- `re.search`: does `re` match anywhere in `s`? -/
def searchRE (re : RE) : List Char → Bool
  | [] => (matchHere re []).isSome
  | c :: rest => (matchHere re (c :: rest)).isSome || searchRE re rest

/-- One fuel-indexed step-bounded pass of `re.sub(re, repl, s)`: scan left
to right; at each position take the engine's match if any, emit `repl`,
and continue after the match (all patterns in the source match at least
one character, so every step consumes input; `fuel = s.length` always
suffices). -/
def subAllF (re : RE) (repl : List Char) : Nat → List Char → List Char
  | 0, s => s
  | _ + 1, [] => []
  | fuel + 1, c :: rest =>
    match matchHere re (c :: rest) with
    | some rem =>
      if rem.length ≤ rest.length then repl ++ subAllF re repl fuel rem
      else c :: subAllF re repl fuel rest
    | none => c :: subAllF re repl fuel rest

/-- `re.sub(re, repl, s)` over the patterns of the source. -/
def subAll (re : RE) (repl : List Char) (s : List Char) : List Char :=
  subAllF re repl s.length s

/-- Helper: `X+` as `cls X` followed by greedy `X*`. -/
def rePlus (p : Char → Bool) : RE := .seq (.cls p) (.greedyStar p)

/-- The pattern `<[^>]+>` of `sanitize_input`'s tag-removal step. -/
def reTag : RE := .seq (.lit ['<']) (.seq (rePlus (fun c => c ≠ '>')) (.lit ['>']))

/-- The pattern `\s+` of `sanitize_input`'s whitespace-collapse step. -/
def reWsPlus : RE := rePlus pyIsSpace

/-- The pattern `<script.*?>.*?</script>`. -/
def reScriptPair : RE :=
  .seq (.lit "<script".data)
    (.seq (.lazyStar reDot)
      (.seq (.lit ['>']) (.seq (.lazyStar reDot) (.lit "</script>".data))))

/-- The pattern `on\w+\s*=`. -/
def reOnAttr : RE :=
  .seq (.lit "on".data)
    (.seq (rePlus pyIsWord) (.seq (.greedyStar pyIsSpace) (.lit ['='])))

/-- The pattern `<NAME.*?>` for a fixed tag name. -/
def reOpenTag (name : List Char) : RE :=
  .seq (.lit ('<' :: name)) (.seq (.lazyStar reDot) (.lit ['>']))

/-- `SecurityManager.suspicious_patterns`, in source order, duplicates
included (the source lists `<link.*?>`, `<meta.*?>`, `<style.*?>`,
`<title.*?>`, `<base.*?>`, `<bgsound.*?>` three times each). -/
def suspiciousPatterns : List RE :=
  [reScriptPair,
   .lit "javascript:".data,
   reOnAttr,
   reOpenTag "iframe".data,
   reOpenTag "object".data,
   reOpenTag "embed".data,
   reOpenTag "form".data,
   reOpenTag "input".data,
   reOpenTag "textarea".data,
   reOpenTag "select".data,
   reOpenTag "button".data,
   reOpenTag "link".data,
   reOpenTag "meta".data,
   reOpenTag "style".data,
   reOpenTag "title".data,
   reOpenTag "base".data,
   reOpenTag "bgsound".data,
   reOpenTag "link".data,
   reOpenTag "meta".data,
   reOpenTag "style".data,
   reOpenTag "title".data,
   reOpenTag "base".data,
   reOpenTag "bgsound".data,
   reOpenTag "link".data,
   reOpenTag "meta".data,
   reOpenTag "style".data,
   reOpenTag "title".data,
   reOpenTag "base".data,
   reOpenTag "bgsound".data]

/-- Python's `html.escape(s)` (with quoting), character by character:
`&` is escaped first in the source, so later replacements never touch the
introduced ampersands and the whole substitution chain is equivalent to
this single character map. -/
def escChar (c : Char) : List Char :=
  if c = '&' then "&amp;".data
  else if c = '<' then "&lt;".data
  else if c = '>' then "&gt;".data
  else if c = '"' then "&quot;".data
  else if c = '\'' then "&#x27;".data
  else [c]

/-- `html.escape` on a character list. -/
def htmlEscape : List Char → List Char
  | [] => []
  | c :: rest => escChar c ++ htmlEscape rest

/-- Python `str.strip()` on ASCII text: drop whitespace from both ends. -/
def pyStrip (l : List Char) : List Char :=
  ((l.dropWhile pyIsSpace).reverse.dropWhile pyIsSpace).reverse

/-- `SecurityManager.sanitize_input`: empty input maps to empty; otherwise
remove complete HTML tags (`<[^>]+>`), HTML-escape, strip each denylisted
pattern in order, then collapse whitespace runs to single spaces and trim. -/
def sanitizeList (l : List Char) : List Char :=
  if l = [] then []
  else
    let t1 := subAll reTag [] l
    let t2 := htmlEscape t1
    let t3 := suspiciousPatterns.foldl (fun acc p => subAll p [] acc) t2
    pyStrip (subAll reWsPlus [' '] t3)

/-- `SecurityManager.sanitize_input` on `String`. -/
def sanitizeInput (s : String) : String :=
  String.mk (sanitizeList s.data)

/-- `SecurityManager.max_message_length`. -/
def maxMessageLength : Nat := 5000

/-- `SecurityManager.validate_message`: reject empty/whitespace-only
input, input longer than `max_message_length`, and input whose sanitized
form differs from its stripped original. -/
def validateMessage (m : String) : Bool :=
  if pyStrip m.data = [] then false
  else if m.length > maxMessageLength then false
  else if sanitizeList m.data ≠ pyStrip m.data then false
  else true

/-! ### Rate limiting and suspicion scoring (`src/security.py`) -/

/-- The mutable state of `SecurityManager`: `request_counts` (a
`defaultdict(list)` of timestamps keyed by string), `blocked_ips` (a set,
modelled as a duplicate-free insert list), and `suspicious_ips`
(a `defaultdict(int)`).  Timestamps from `time.time()` are modelled as
rationals. -/
structure SecState where
  counts : String → List ℚ
  blockedIps : List String
  suspiciousIps : String → Nat

/-- The fresh `SecurityManager()` state. -/
def SecState.init : SecState :=
  { counts := fun _ => [], blockedIps := [], suspiciousIps := fun _ => 0 }

/-- Point update of a string-keyed map. -/
def updMap {α : Type} (f : String → α) (k : String) (v : α) : String → α :=
  fun k' => if k' = k then v else f k'

/-- `SecurityManager.rate_limit_window` (3600 s). -/
def rateLimitWindow : ℚ := 3600

/-- `SecurityManager.max_requests_per_hour`. -/
def maxRequestsPerHour : Nat := 100

/-- The `request_counts` key `f"user_{user_id}"`. -/
def userKey (uid : ℤ) : String := "user_" ++ toString uid

/-- The `request_counts` key `f"ip_{ip_address}"`. -/
def ipKey (ip : String) : String := "ip_" ++ ip

/-- `SecurityManager.check_rate_limit`: evict timestamps at or before
`now - window` from the user's list (writing the pruned list back), fail
if the user already has `max_requests_per_hour` in-window requests; then,
if an IP was supplied, likewise with ceiling `2 * max_requests_per_hour`.
The check never appends a timestamp. -/
def checkRateLimit (st : SecState) (now : ℚ) (uid : ℤ) (ip : Option String) :
    Bool × SecState :=
  let cutoff := now - rateLimitWindow
  let ukey := userKey uid
  let ureqs := (st.counts ukey).filter (fun t => t > cutoff)
  let st1 := { st with counts := updMap st.counts ukey ureqs }
  if ureqs.length ≥ maxRequestsPerHour then (false, st1)
  else
    match ip with
    | none => (true, st1)
    | some a =>
      let ikey := ipKey a
      let ireqs := (st1.counts ikey).filter (fun t => t > cutoff)
      let st2 := { st1 with counts := updMap st1.counts ikey ireqs }
      if ireqs.length ≥ maxRequestsPerHour * 2 then (false, st2)
      else (true, st2)

/-- `SecurityManager.record_request`: append the current timestamp to the
user's list and, if supplied, the IP's list. -/
def recordRequest (st : SecState) (now : ℚ) (uid : ℤ) (ip : Option String) :
    SecState :=
  let st1 := { st with
    counts := updMap st.counts (userKey uid) (st.counts (userKey uid) ++ [now]) }
  match ip with
  | none => st1
  | some a =>
    { st1 with
      counts := updMap st1.counts (ipKey a) (st1.counts (ipKey a) ++ [now]) }

/-- `SecurityManager.is_ip_blocked`. -/
def isIpBlocked (st : SecState) (ip : String) : Bool := ip ∈ st.blockedIps

/-- Python `str.split()` (no argument): split on whitespace runs,
discarding empty chunks. -/
def pySplit (l : List Char) : List (List Char) :=
  (l.splitOnP (fun c => pyIsSpace c)).filter (fun w => w ≠ [])

/-- Largest multiplicity among the words (`max(word_counts.values())`). -/
def maxRep (words : List (List Char)) : Nat :=
  (words.map (fun w => words.count w)).foldr max 0

/-- The `suspicious_score` accumulated by
`SecurityManager.detect_suspicious_activity`: +10 per denylist entry whose
pattern occurs in the raw message (the source loop tests `re.search` per
entry, so occurrence multiplicity inside the message is irrelevant while
duplicated entries each count); +5 when the message has more than 10
words and one word exceeds 30 % of the word count (the float literal
`0.3` is modelled as the rational 3/10; none of the verified inputs has
more than 10 words, so the double-rounding of `0.3` is never exercised);
+15 when the user has more than 10 recorded requests in the last 60 s. -/
def suspScore (st : SecState) (now : ℚ) (msg : List Char) (uid : ℤ) : Nat :=
  let s1 := suspiciousPatterns.foldl
    (fun acc p => if searchRE p msg then acc + 10 else acc) 0
  let words := pySplit (msg.map lowerC)
  let s2 := if words.length > 10 then
      (if 10 * maxRep words > 3 * words.length then 5 else 0)
    else 0
  let recent := (st.counts (userKey uid)).filter (fun t => t > now - 60)
  let s3 := if recent.length > 10 then 15 else 0
  s1 + s2 + s3

/-- Set insertion for `blocked_ips.add`. -/
def insertIp (l : List String) (a : String) : List String :=
  if a ∈ l then l else a :: l

/-- `SecurityManager.detect_suspicious_activity`: compute the score; over
5, mark the origin suspicious (increment its counter when an IP is
given); over 20, additionally add the origin to the block set and report
`True`; otherwise report `False`. -/
def detectSuspicious (st : SecState) (now : ℚ) (msg : String) (uid : ℤ)
    (ip : Option String) : Bool × SecState :=
  let score := suspScore st now msg.data uid
  if score > 5 then
    let st1 := match ip with
      | some a => { st with
          suspiciousIps := updMap st.suspiciousIps a (st.suspiciousIps a + 1) }
      | none => st
    if score > 20 then
      let st2 := match ip with
        | some a => { st1 with blockedIps := insertIp st1.blockedIps a }
        | none => st1
      (true, st2)
    else (false, st1)
  else (false, st)

/-! ### The tool registry (`src/tools.py`)

The arithmetic evaluator below is the shallow embedding of
`eval(safe_expression)` restricted to the arithmetic fragment the tool's
registry entry describes (numeric literals, `+ - * /`, parentheses,
unary signs).  Numeric values are modelled as rationals; Python's
int/float distinction affects only the rendering of results, and every
verified statement evaluates integer-valued expressions, where the
rendering below coincides with Python's.  A `SyntaxError` or
`ZeroDivisionError` raised by `eval` is modelled as `none`. -/

/-- The character class kept by `calculate`'s whitelist
`[^0-9+\-*/().\s]` (its complement is removed). -/
def isCalcAllowed (c : Char) : Bool :=
  c.isDigit || c = '+' || c = '-' || c = '*' || c = '/' ||
    c = '(' || c = ')' || c = '.' || pyIsSpace c

/-- `safe_expression = re.sub(r'[^0-9+\-*/().\s]', '', expression)`. -/
def safeExpression (e : List Char) : List Char :=
  subAll (.cls (fun c => !(isCalcAllowed c))) [] e

/-- An exact, unreduced rational value `num / den`; the evaluator keeps
`den ≠ 0` by checking divisors for zero before dividing.  Its rational
value is recovered by `Frac.toRat`. -/
structure Frac where
  num : ℤ
  den : ℤ
deriving DecidableEq

/-- The rational value of a fraction. -/
def Frac.toRat (f : Frac) : ℚ :=
  if f.den < 0 then mkRat (-f.num) f.den.natAbs else mkRat f.num f.den.natAbs

/-- Exact fraction arithmetic. -/
def Frac.add (a b : Frac) : Frac := ⟨a.num * b.den + b.num * a.den, a.den * b.den⟩

/-- Exact fraction subtraction. -/
def Frac.sub (a b : Frac) : Frac := ⟨a.num * b.den - b.num * a.den, a.den * b.den⟩

/-- Exact fraction multiplication. -/
def Frac.mul (a b : Frac) : Frac := ⟨a.num * b.num, a.den * b.den⟩

/-- Exact fraction division (the caller rejects zero divisors first). -/
def Frac.div (a b : Frac) : Frac := ⟨a.num * b.den, a.den * b.num⟩

/-- Fraction negation. -/
def Frac.neg (a : Frac) : Frac := ⟨-a.num, a.den⟩

/-- Arithmetic tokens. -/
inductive Tok : Type
  | num : Frac → Tok
  | plus | minus | star | slash | lparen | rparen
deriving DecidableEq

/-- Digits of a numeral as a natural number. -/
def digitsVal (ds : List Char) : Nat :=
  ds.foldl (fun acc c => 10 * acc + (c.toNat - '0'.toNat)) 0

/-- Lex one numeral (`digits`, `digits.`, `digits.digits`, `.digits`) at
the head of the input; at least one digit is required, as in Python. -/
def lexNum (l : List Char) : Option (Frac × List Char) :=
  let intDs := l.takeWhile Char.isDigit
  let rest1 := l.dropWhile Char.isDigit
  match rest1 with
  | '.' :: rest2 =>
    let fracDs := rest2.takeWhile Char.isDigit
    let rest3 := rest2.dropWhile Char.isDigit
    if intDs = [] ∧ fracDs = [] then none
    else some (⟨(digitsVal intDs : ℤ) * (10 : ℤ) ^ fracDs.length +
      (digitsVal fracDs : ℤ), (10 : ℤ) ^ fracDs.length⟩, rest3)
  | _ => if intDs = [] then none else some (⟨(digitsVal intDs : ℤ), 1⟩, rest1)

/-- Fuel-indexed tokenizer; whitespace is skipped, any other character
outside the grammar is a syntax error. -/
def tokenizeF : Nat → List Char → Option (List Tok)
  | 0, _ => none
  | _ + 1, [] => some []
  | fuel + 1, c :: rest =>
    if pyIsSpace c then tokenizeF fuel rest
    else if c = '+' then (tokenizeF fuel rest).map (Tok.plus :: ·)
    else if c = '-' then (tokenizeF fuel rest).map (Tok.minus :: ·)
    else if c = '*' then (tokenizeF fuel rest).map (Tok.star :: ·)
    else if c = '/' then (tokenizeF fuel rest).map (Tok.slash :: ·)
    else if c = '(' then (tokenizeF fuel rest).map (Tok.lparen :: ·)
    else if c = ')' then (tokenizeF fuel rest).map (Tok.rparen :: ·)
    else
      match lexNum (c :: rest) with
      | some (q, rest2) =>
        if rest2.length ≤ rest.length then (tokenizeF fuel rest2).map (Tok.num q :: ·)
        else none
      | none => none

/-- Tokenize an expression. -/
def tokenize (l : List Char) : Option (List Tok) := tokenizeF (l.length + 1) l

mutual

/-- Factor: signed atom — a numeral or a parenthesized expression,
optionally preceded by unary `+`/`-`. -/
def parseF : Nat → List Tok → Option (Frac × List Tok)
  | 0, _ => none
  | fuel + 1, toks =>
    match toks with
    | .plus :: rest => parseF fuel rest
    | .minus :: rest => (parseF fuel rest).map (fun (q, r) => (q.neg, r))
    | .num q :: rest => some (q, rest)
    | .lparen :: rest =>
      match parseE fuel rest with
      | some (q, .rparen :: rest2) => some (q, rest2)
      | _ => none
    | _ => none

/-- Remaining `*`/`/` chain after a factor; division by zero is a
`ZeroDivisionError`, i.e. `none`. -/
def parseTChain : Nat → Frac → List Tok → Option (Frac × List Tok)
  | 0, _, _ => none
  | fuel + 1, acc, toks =>
    match toks with
    | .star :: rest =>
      match parseF fuel rest with
      | some (q, rest2) => parseTChain fuel (acc.mul q) rest2
      | none => none
    | .slash :: rest =>
      match parseF fuel rest with
      | some (q, rest2) =>
        if q.num = 0 then none else parseTChain fuel (acc.div q) rest2
      | none => none
    | _ => some (acc, toks)

/-- Term: factor followed by a `*`/`/` chain. -/
def parseT : Nat → List Tok → Option (Frac × List Tok)
  | 0, _ => none
  | fuel + 1, toks =>
    match parseF fuel toks with
    | some (q, rest) => parseTChain fuel q rest
    | none => none

/-- Remaining `+`/`-` chain after a term. -/
def parseEChain : Nat → Frac → List Tok → Option (Frac × List Tok)
  | 0, _, _ => none
  | fuel + 1, acc, toks =>
    match toks with
    | .plus :: rest =>
      match parseT fuel rest with
      | some (q, rest2) => parseEChain fuel (acc.add q) rest2
      | none => none
    | .minus :: rest =>
      match parseT fuel rest with
      | some (q, rest2) => parseEChain fuel (acc.sub q) rest2
      | none => none
    | _ => some (acc, toks)

/-- Expression: term followed by a `+`/`-` chain. -/
def parseE : Nat → List Tok → Option (Frac × List Tok)
  | 0, _ => none
  | fuel + 1, toks =>
    match parseT fuel toks with
    | some (q, rest) => parseEChain fuel q rest
    | none => none

end

/-- Evaluate a whole token list. -/
def evalToks (toks : List Tok) : Option Frac :=
  match parseE (2 * toks.length + 2) toks with
  | some (q, []) => some q
  | _ => none

/-- `eval(safe_expression)` on the arithmetic fragment: `none` models a
raised exception. -/
def calcEval (l : List Char) : Option Frac :=
  match tokenize l with
  | some toks => evalToks toks
  | none => none

/-- Result rendering; coincides with Python's for the integer values all
verified statements evaluate. -/
def numRepr (f : Frac) : String :=
  let r := f.toRat
  if r.den = 1 then toString r.num else toString r.num ++ "/" ++ toString r.den

/-- `ChatbotTools.calculate`: strip disallowed characters, evaluate what
remains, and report either the calculation or a caught-error message (the
Python message interpolates `str(e)`; the exception text is abstracted to
a fixed tail). -/
def calculate (e : String) : String :=
  match calcEval (safeExpression e.data) with
  | some v => "Calculation: " ++ e ++ " = " ++ numRepr v
  | none => "Error calculating '" ++ e ++ "': invalid expression"

/-- The argument dictionary passed to `execute_tool`; `Dict.get` with
default `""` is modelled by `Option.getD ""`. -/
structure ToolArgs where
  query : Option String := none
  expression : Option String := none
  location : Option String := none

/-- The four registered tool names of `ChatbotTools.tools`. -/
def toolNames : List String :=
  ["web_search", "calculate", "get_current_time", "weather_search"]

/-- `ChatbotTools.execute_tool`.  The network-bound tools (`web_search`,
`weather_search`) and the clock are abstracted as parameters — their
bodies already return any transport failure as a caught-error string, so
they are total string functions here. -/
def executeTool (web : String → String) (weather : String → String)
    (clock : String) (name : String) (args : ToolArgs) : String :=
  if name = "web_search" then web (args.query.getD "")
  else if name = "calculate" then calculate (args.expression.getD "")
  else if name = "get_current_time" then "Current date and time: " ++ clock
  else if name = "weather_search" then weather (args.location.getD "")
  else "Unknown tool: " ++ name

/-! ### The two-round model protocol (`src/llm_integration.py`) -/

/-- A chat message as sent to the model API. -/
structure Msg where
  role : String
  content : String
  toolCallId : Option String := none
deriving DecidableEq

/-- One tool-call request from the model (`tool_call.id`,
`tool_call.type`, function name and raw JSON argument string). -/
structure ToolCallReq where
  id : String
  typ : String
  name : String
  args : String
deriving DecidableEq

/-- One model response: `choices[0].message.content` (possibly `None`),
its `tool_calls` (`None` is modelled as `[]`, matching the source's
truthiness test), and `usage.total_tokens`. -/
structure ModelResponse where
  content : Option String
  toolCalls : List ToolCallReq
  usage : Option Nat
deriving DecidableEq

/-- The model client: a function of the message list and of whether a
tool catalogue is passed (`tools`/`tool_choice` present in the request).
The orchestrator always passes the four-entry catalogue, so the flag
captures everything the source's call parameters vary on. -/
def ModelClient : Type := List Msg → Bool → ModelResponse

/-- One recorded invocation of the model client. -/
structure ModelInvocation where
  msgs : List Msg
  toolsOffered : Bool
deriving DecidableEq

/-- `LLMIntegration.system_prompt` (content immaterial to the protocol
claims; abbreviated to its first line). -/
def systemPrompt : String :=
  "You are a helpful AI assistant with access to various tools."

/-- The message list built by `LLMIntegration.process_message`: system
prompt, conversation history, optional context note, then the new user
message. -/
def buildMessages (message : String) (history : List Msg)
    (context : Option String) : List Msg :=
  ⟨"system", systemPrompt, none⟩ :: history ++
    (match context with
     | some c => [⟨"system", "User context: " ++ c, none⟩]
     | none => []) ++
    [⟨"user", message, none⟩]

/-- The `tool`-role messages appended per executed call (role `tool`,
`tool_call_id`, result text). -/
def toolMsgsOf (toolExec : String → String → String)
    (tcs : List ToolCallReq) : List Msg :=
  tcs.map (fun tc => ⟨"tool", toolExec tc.name tc.args, some tc.id⟩)

/-- The result dictionary of `LLMIntegration.process_message`, extended
with the trace of model invocations (message list and whether tools were
offered) so invocation counts are provable. -/
structure LLMResult where
  message : String
  tokensUsed : Option Nat
  toolCalls : Option (List ToolCallReq)
  invocations : List ModelInvocation
deriving DecidableEq

/-- `LLMIntegration.process_message`.  The first API call passes the tool
catalogue (flag `toolsB`); if its response carries tool calls, each is
executed in order, a `tool`-role message is appended per call, and a
second API call is made with the extended message list and *no* tool
catalogue; the returned `tokens_used` is the second response's usage.
Without tool calls, a single invocation's content and usage are
returned.  The Python `except` wrapper around the body only fires when
the model client itself raises; the client is modelled as a total
function, so that branch is unreachable here. -/
def llmProcessMessage (client : ModelClient)
    (toolExec : String → String → String) (message : String)
    (history : List Msg) (context : Option String) (toolsB : Bool) : LLMResult :=
  let msgs := buildMessages message history context
  let first := client msgs toolsB
  if first.toolCalls ≠ [] then
    let msgs2 := msgs ++ [⟨"assistant", (first.content.getD ""), none⟩] ++
      toolMsgsOf toolExec first.toolCalls
    let second := client msgs2 false
    { message := second.content.getD "", tokensUsed := second.usage,
      toolCalls := some first.toolCalls,
      invocations := [⟨msgs, toolsB⟩, ⟨msgs2, false⟩] }
  else
    { message := first.content.getD "", tokensUsed := first.usage,
      toolCalls := none, invocations := [⟨msgs, toolsB⟩] }

/-! ### The orchestrator (`src/chatbot_orchestrator.py`) -/

/-- A persisted `ChatMessage` row (a Turn). -/
structure Turn where
  role : String
  content : String
  tokensUsed : Option Nat := none
  toolCalls : Option (List ToolCallReq) := none
deriving DecidableEq

/-- Injectable outcomes of the SessionStore mutations performed inside
`ChatbotOrchestrator.process_message`'s `try` block: saving the user
turn, saving the assistant turn, and the final session-touch commit.
`.error e` models the database driver raising with text `e`. -/
structure StoreBehavior where
  saveUser : Except String Unit := .ok ()
  saveAssistant : Except String Unit := .ok ()
  touchSession : Except String Unit := .ok ()

/-- The always-succeeding store. -/
def storeOk : StoreBehavior := {}

/-- The fallback text of the orchestrator's blanket `except` handler. -/
def fallbackText : String :=
  "I apologize, but I'm experiencing technical difficulties. Please try again later."

/-- The orchestrator's return value (the dictionary it builds), extended
with the persistence and invocation traces.  The function is total: the
source returns a dictionary on *every* path, the `except Exception`
branch included, so no exception ever escapes it. -/
structure OrchResult where
  message : String
  tokensUsed : Option Nat := none
  toolCalls : Option (List ToolCallReq) := none
  error : Option String := none
  persisted : List Turn := []
  invocations : List ModelInvocation := []
deriving DecidableEq

/-- `ChatbotOrchestrator.process_message`: persist the user turn, run
the LLM round(s) with the (non-empty) tool catalogue, persist the
assistant turn with the returned usage and tool-call list, touch the
session.  Any raising store operation lands in the `except Exception`
handler, which returns the fallback dictionary with the error text —
turns persisted before the failure remain recorded.  Session resolution
and the history/context reads are abstracted into the `history` and
`context` parameters. -/
def orchProcessMessage (store : StoreBehavior) (client : ModelClient)
    (toolExec : String → String → String) (message : String)
    (history : List Msg) (context : Option String) : OrchResult :=
  match store.saveUser with
  | .error e => { message := fallbackText, error := some e }
  | .ok _ =>
    let userTurn : Turn := { role := "user", content := message }
    let resp := llmProcessMessage client toolExec message history context true
    match store.saveAssistant with
    | .error e =>
      { message := fallbackText, error := some e, persisted := [userTurn],
        invocations := resp.invocations }
    | .ok _ =>
      let assistantTurn : Turn :=
        { role := "assistant", content := resp.message,
          tokensUsed := resp.tokensUsed, toolCalls := resp.toolCalls }
      match store.touchSession with
      | .error e =>
        { message := fallbackText, error := some e,
          persisted := [userTurn, assistantTurn], invocations := resp.invocations }
      | .ok _ =>
        { message := resp.message, tokensUsed := resp.tokensUsed,
          toolCalls := resp.toolCalls, persisted := [userTurn, assistantTurn],
          invocations := resp.invocations }

/-! ### The two entry paths (`src/main.py` `/chat`, `src/websocket_chat.py`) -/

/-- HTTP rejection statuses raised by the `/chat` endpoint's gates. -/
inductive HttpError : Type
  | forbidden403
  | badRequest400
  | tooMany429
deriving DecidableEq

/-- Outcome of one `/chat` request: the HTTP result, the security state
after the request, and the turns persisted by it. -/
structure ChatOutcome where
  result : Except HttpError OrchResult
  state : SecState
  persisted : List Turn

/-- The `/chat` endpoint of `src/main.py`: blocked-IP check, message
validation, rate-limit admission, suspicion detection, request
recording, sanitization, then the orchestrator.  The orchestrator is
total, so the endpoint's surrounding `try/except` 500-branch is
unreachable and every non-rejected request yields `.ok`.  (The
session-id format check, which no claim concerns, is omitted.) -/
def chatEndpoint (store : StoreBehavior) (client : ModelClient)
    (toolExec : String → String → String) (st : SecState) (now : ℚ)
    (uid : ℤ) (ip : Option String) (message : String)
    (history : List Msg) (context : Option String) : ChatOutcome :=
  if (match ip with | some a => isIpBlocked st a | none => false) then
    ⟨.error .forbidden403, st, []⟩
  else if ¬ validateMessage message then ⟨.error .badRequest400, st, []⟩
  else
    let rate := checkRateLimit st now uid ip
    if ¬ rate.1 then ⟨.error .tooMany429, rate.2, []⟩
    else
      let susp := detectSuspicious rate.2 now message uid ip
      if susp.1 then ⟨.error .badRequest400, susp.2, []⟩
      else
        let st3 := recordRequest susp.2 now uid ip
        let r := orchProcessMessage store client toolExec
          (sanitizeInput message) history context
        ⟨.ok r, st3, r.persisted⟩

/-- Outbound WebSocket events relevant to the message branch. -/
inductive WsEvent : Type
  | errorEv : String → WsEvent
  | typingEv : WsEvent
  | messageEv : String → WsEvent
deriving DecidableEq

/-- Outcome of one inbound `message` event on the WebSocket path. -/
structure WsOutcome where
  events : List WsEvent
  persisted : List Turn
deriving DecidableEq

/-- The `message` branch of `websocket_endpoint` in
`src/websocket_chat.py`: validate, sanitize, orchestrate, reply.  The
security manager is in scope (`st`) but the handler calls only
`validate_message` and `sanitize_input` on it — no rate-limit admission,
no recording, no suspicion check. -/
def wsHandleMessage (store : StoreBehavior) (client : ModelClient)
    (toolExec : String → String → String) (st : SecState) (message : String)
    (history : List Msg) (context : Option String) : WsOutcome :=
  if ¬ validateMessage message then
    ⟨[.errorEv "Invalid message content"], []⟩
  else
    let r := orchProcessMessage store client toolExec
      (sanitizeInput message) history context
    ⟨[.typingEv, .messageEv r.message], r.persisted⟩

/-! ### Concrete fixtures used by closed statements -/

/-- A model client answering without tool calls. -/
def clientNoTool : ModelClient := fun _ _ => ⟨some "hi", [], some 11⟩

/-- A model client requesting one tool call in the catalogue-bearing
round and answering plainly in the follow-up round. -/
def clientOneTool : ModelClient := fun _ toolsB =>
  if toolsB then ⟨some "", [⟨"call_1", "function", "get_current_time", ""⟩], some 7⟩
  else ⟨some "done", [], some 5⟩

/-- A trivial tool executor. -/
def toolExecConst : String → String → String := fun _ _ => "result"

/-- A plain client for the entry-path statements. -/
def clientPlain : ModelClient := fun _ _ => ⟨some "ok", [], some 3⟩

/-- A store whose user-turn save raises. -/
def storeFailUser : StoreBehavior := { saveUser := .error "db down" }

/-- A security state whose window for user 1 already holds 100 fresh
timestamps. -/
def stFull : SecState :=
  { SecState.init with
    counts := fun k => if k = userKey 1 then List.replicate 100 (0 : ℚ) else [] }

/-! ### Supporting lemmas: substitution only deletes or inserts `repl` -/

/-- A successful literal match returns a suffix of the input. -/
lemma litMatch_suffix : ∀ (p s r : List Char), litMatch p s = some r → r <:+ s := by
  intro p
  induction p with
  | nil =>
    intro s r h
    simp only [litMatch, Option.some.injEq] at h
    exact h ▸ List.suffix_refl s
  | cons a ps ih =>
    intro s r h
    cases s with
    | nil => simp [litMatch] at h
    | cons c cs =>
      simp only [litMatch] at h
      split at h
      · exact (ih cs r h).trans (List.suffix_cons c cs)
      · exact absurd h (by simp)

/-- A successful lazy-star match hands a suffix to its continuation. -/
lemma starLazy_suffix (p : Char → Bool) :
    ∀ (s : List Char) (k : List Char → Option (List Char)) (r : List Char),
      (∀ u r', u <:+ s → k u = some r' → r' <:+ u) →
      starLazy p s k = some r → r <:+ s := by
  intro s
  induction s with
  | nil =>
    intro k r hk h
    exact hk [] r (List.suffix_refl []) h
  | cons c rest ih =>
    intro k r hk h
    cases hks : k (c :: rest) with
    | some r0 =>
      simp only [starLazy, hks, Option.some.injEq] at h
      subst h
      exact hk (c :: rest) r0 (List.suffix_refl _) hks
    | none =>
      simp only [starLazy, hks] at h
      split at h
      · have step := ih k r
          (fun u r' hu hk' => hk u r' (hu.trans (List.suffix_cons c rest)) hk') h
        exact step.trans (List.suffix_cons c rest)
      · exact absurd h (by simp)

/-- A successful greedy-star match hands a suffix to its continuation. -/
lemma starGreedy_suffix (p : Char → Bool) :
    ∀ (s : List Char) (k : List Char → Option (List Char)) (r : List Char),
      (∀ u r', u <:+ s → k u = some r' → r' <:+ u) →
      starGreedy p s k = some r → r <:+ s := by
  intro s
  induction s with
  | nil =>
    intro k r hk h
    exact hk [] r (List.suffix_refl []) h
  | cons c rest ih =>
    intro k r hk h
    by_cases hpc : p c = true
    · cases hin : starGreedy p rest k with
      | some r0 =>
        simp only [starGreedy, hpc, if_true, hin, Option.some.injEq] at h
        subst h
        have step := ih k r0
          (fun u r' hu hk' => hk u r' (hu.trans (List.suffix_cons c rest)) hk') hin
        exact step.trans (List.suffix_cons c rest)
      | none =>
        simp only [starGreedy, hpc, if_true, hin] at h
        exact hk (c :: rest) r (List.suffix_refl _) h
    · simp only [starGreedy, hpc, if_false] at h
      exact hk (c :: rest) r (List.suffix_refl _) h

/-- The matcher always hands a suffix of its input to the continuation,
so a successful overall match returns a suffix of the input. -/
lemma matchM_suffix : ∀ (re : RE) (s : List Char)
    (k : List Char → Option (List Char)) (r : List Char),
    (∀ u r', u <:+ s → k u = some r' → r' <:+ u) →
    matchM re s k = some r → r <:+ s := by
  intro re
  induction re with
  | lit l =>
    intro s k r hk h
    simp only [matchM] at h
    cases hm : litMatch l s with
    | none => rw [hm] at h; exact absurd h (by simp)
    | some rest =>
      rw [hm] at h
      have hrest := litMatch_suffix l s rest hm
      exact (hk rest r hrest h).trans hrest
  | cls p =>
    intro s k r hk h
    cases s with
    | nil => simp [matchM] at h
    | cons c rest =>
      simp only [matchM] at h
      split at h
      · exact (hk rest r (List.suffix_cons c rest) h).trans (List.suffix_cons c rest)
      · exact absurd h (by simp)
  | seq a b iha ihb =>
    intro s k r hk h
    simp only [matchM] at h
    refine iha s _ r ?_ h
    intro u r' hu hh
    exact ihb u k r' (fun v r'' hv hkv => hk v r'' (hv.trans hu) hkv) hh
  | lazyStar p =>
    intro s k r hk h
    exact starLazy_suffix p s k r hk h
  | greedyStar p =>
    intro s k r hk h
    exact starGreedy_suffix p s k r hk h

/-- A match found by `matchHere` leaves a suffix of the input. -/
lemma matchHere_suffix {re : RE} {s r : List Char}
    (h : matchHere re s = some r) : r <:+ s := by
  refine matchM_suffix re s some r ?_ h
  intro u r' _ hh
  cases hh
  exact List.suffix_refl u

/-- Substitution output consists of `repl`-characters and input
characters only. -/
lemma mem_subAllF {re : RE} {repl : List Char} :
    ∀ (fuel : Nat) (s : List Char) (a : Char),
      a ∈ subAllF re repl fuel s → a ∈ repl ∨ a ∈ s := by
  intro fuel
  induction fuel with
  | zero =>
    intro s a h
    right
    simpa [subAllF] using h
  | succ f ih =>
    intro s a h
    cases s with
    | nil => simp [subAllF] at h
    | cons c rest =>
      cases hm : matchHere re (c :: rest) with
      | some rem =>
        simp only [subAllF, hm] at h
        split at h
        · rcases List.mem_append.mp h with hrep | hrec
          · exact Or.inl hrep
          · rcases ih rem a hrec with hrep | hmem
            · exact Or.inl hrep
            · exact Or.inr ((matchHere_suffix hm).subset hmem)
        · rcases List.mem_cons.mp h with rfl | hrec
          · exact Or.inr (List.mem_cons_self _ _)
          · rcases ih rest a hrec with hrep | hmem
            · exact Or.inl hrep
            · exact Or.inr (List.mem_cons_of_mem c hmem)
      | none =>
        simp only [subAllF, hm] at h
        rcases List.mem_cons.mp h with rfl | hrec
        · exact Or.inr (List.mem_cons_self _ _)
        · rcases ih rest a hrec with hrep | hmem
          · exact Or.inl hrep
          · exact Or.inr (List.mem_cons_of_mem c hmem)

/-- Substitution with the empty replacement only deletes. -/
lemma mem_subAll {re : RE} {repl s : List Char} {a : Char}
    (h : a ∈ subAll re repl s) : a ∈ repl ∨ a ∈ s :=
  mem_subAllF s.length s a h

/-- No escape fragment contains `<`. -/
lemma lt_not_mem_escChar (c : Char) : '<' ∉ escChar c := by
  unfold escChar
  split_ifs with h1 h2 h3 h4 h5
  · decide
  · decide
  · decide
  · decide
  · decide
  · simp only [List.mem_singleton]
    exact fun hh => h2 hh.symm

/-- `html.escape` output never contains a raw `<`. -/
lemma htmlEscape_no_lt : ∀ (l : List Char), '<' ∉ htmlEscape l := by
  intro l
  induction l with
  | nil => simp [htmlEscape]
  | cons c rest ih =>
    simp only [htmlEscape, List.mem_append]
    rintro (h | h)
    · exact lt_not_mem_escChar c h
    · exact ih h

/-- Stripping keeps only input characters. -/
lemma mem_pyStrip {l : List Char} {a : Char} (h : a ∈ pyStrip l) : a ∈ l := by
  unfold pyStrip at h
  rw [List.mem_reverse] at h
  have h2 := (List.dropWhile_suffix pyIsSpace).subset h
  rw [List.mem_reverse] at h2
  exact (List.dropWhile_suffix pyIsSpace).subset h2

/-- The pattern-stripping fold only deletes characters. -/
lemma mem_foldl_subAll : ∀ (ps : List RE) (l : List Char) (a : Char),
    a ∈ ps.foldl (fun acc p => subAll p [] acc) l → a ∈ l := by
  intro ps
  induction ps with
  | nil => intro l a h; simpa using h
  | cons p ps ih =>
    intro l a h
    have step := ih (subAll p [] l) a (by simpa using h)
    rcases mem_subAll step with hrep | hmem
    · simp at hrep
    · exact hmem

/-! ### Supporting lemmas: rate-limit state -/

/-- User and origin rate-window keys never collide. -/
lemma userKey_ne_ipKey (uid : ℤ) (a : String) : userKey uid ≠ ipKey a := by
  intro h
  have hd := congrArg String.data h
  simp [userKey, ipKey, String.data_append] at hd

/-- Pruning a window in place yields a sublist at every key. -/
lemma updMap_filter_sublist (f : String → List ℚ) (key : String) (p : ℚ → Bool) :
    ∀ k, List.Sublist (updMap f key ((f key).filter p) k) (f k) := by
  intro k
  unfold updMap
  split_ifs with h
  · rw [h]
    exact List.filter_sublist _
  · exact List.Sublist.refl _

/-- A full user window makes admission fail. -/
lemma checkRateLimit_user_full (st : SecState) (now : ℚ) (uid : ℤ)
    (ip : Option String)
    (h : maxRequestsPerHour ≤
        ((st.counts (userKey uid)).filter (fun t => t > now - rateLimitWindow)).length) :
    (checkRateLimit st now uid ip).1 = false := by
  simp only [checkRateLimit]
  split_ifs with hc
  · rfl
  all_goals exact absurd h hc

/-- When every recorded timestamp is older than the window, admission
succeeds again. -/
lemma checkRateLimit_expired (st : SecState) (now : ℚ) (uid : ℤ)
    (ip : Option String)
    (hu : ∀ t ∈ st.counts (userKey uid), rateLimitWindow < now - t)
    (hi : ∀ a, ip = some a → ∀ t ∈ st.counts (ipKey a), rateLimitWindow < now - t) :
    (checkRateLimit st now uid ip).1 = true := by
  have hu0 : (st.counts (userKey uid)).filter (fun t => t > now - rateLimitWindow) = [] := by
    refine List.filter_eq_nil_iff.mpr ?_
    intro t ht
    have := hu t ht
    simp only [decide_eq_true_eq]
    intro hgt
    linarith
  cases ip with
  | none =>
    simp only [checkRateLimit, hu0, List.length_nil]
    rw [if_neg (by simp [maxRequestsPerHour])]
  | some a =>
    have hk : ¬(ipKey a = userKey uid) := fun hh => userKey_ne_ipKey uid a hh.symm
    have hi0 : (st.counts (ipKey a)).filter (fun t => t > now - rateLimitWindow) = [] := by
      refine List.filter_eq_nil_iff.mpr ?_
      intro t ht
      have := hi a rfl t ht
      simp only [decide_eq_true_eq]
      intro hgt
      linarith
    simp [checkRateLimit, hu0, hi0, updMap, hk, maxRequestsPerHour]

/-- The admission check never appends a timestamp: every per-key list of
the post-check state is a sublist of the pre-check list. -/
lemma checkRateLimit_no_append (st : SecState) (now : ℚ) (uid : ℤ)
    (ip : Option String) :
    ∀ k, List.Sublist ((checkRateLimit st now uid ip).2.counts k) (st.counts k) := by
  intro k
  have h1 := updMap_filter_sublist st.counts (userKey uid)
    (fun t => t > now - rateLimitWindow) k
  cases ip with
  | none =>
    simp only [checkRateLimit]
    split_ifs with hc
    · exact h1
    · exact h1
  | some a =>
    simp only [checkRateLimit]
    split_ifs with hc hc2
    · exact h1
    · exact (updMap_filter_sublist _ (ipKey a) _ k).trans
        (updMap_filter_sublist st.counts (userKey uid) _ k)
    · exact (updMap_filter_sublist _ (ipKey a) _ k).trans
        (updMap_filter_sublist st.counts (userKey uid) _ k)

/-- Recording appends exactly the current timestamp to the user's
window. -/
lemma recordRequest_appends (st : SecState) (now : ℚ) (uid : ℤ)
    (ip : Option String) :
    (recordRequest st now uid ip).counts (userKey uid) =
      st.counts (userKey uid) ++ [now] := by
  cases ip with
  | none => simp [recordRequest, updMap]
  | some a => simp [recordRequest, updMap, userKey_ne_ipKey uid a]

/-- The saturated state's user window holds 100 in-window timestamps. -/
lemma stFull_filter_full :
    maxRequestsPerHour ≤
      ((stFull.counts (userKey 1)).filter
        (fun t => t > (0 : ℚ) - rateLimitWindow)).length := by
  have hc : stFull.counts (userKey 1) = List.replicate 100 (0 : ℚ) := by
    simp [stFull]
  rw [hc, List.filter_eq_self.mpr]
  · simp [maxRequestsPerHour]
  · intro a ha
    rw [List.eq_of_mem_replicate ha]
    simp only [decide_eq_true_eq]
    norm_num [rateLimitWindow]

/-! ### Supporting lemmas: scoring and the calculator whitelist -/

/-- The +10-per-matching-entry loop is ten times the matching-entry
count. -/
lemma foldl_ten (f : RE → Bool) : ∀ (l : List RE) (n : Nat),
    l.foldl (fun acc p => if f p then acc + 10 else acc) n = n + 10 * l.countP f := by
  intro l
  induction l with
  | nil => intro n; rfl
  | cons p ps ih =>
    intro n
    simp only [List.foldl_cons, List.countP_cons]
    by_cases h : f p <;> simp [h, ih] <;> ring

/-- Deleting every character of a one-character class is filtering by its
complement. -/
lemma subAllF_cls_filter (p : Char → Bool) :
    ∀ (fuel : Nat) (s : List Char), s.length ≤ fuel →
      subAllF (.cls p) [] fuel s = s.filter (fun c => !(p c)) := by
  intro fuel
  induction fuel with
  | zero =>
    intro s h
    rw [List.length_eq_zero.mp (Nat.le_zero.mp h)]
    simp [subAllF]
  | succ f ih =>
    intro s h
    cases s with
    | nil => simp [subAllF]
    | cons c rest =>
      have hlen : rest.length ≤ f := by
        simpa [Nat.succ_le_succ_iff] using h
      by_cases hpc : p c = true
      · have hm : matchHere (.cls p) (c :: rest) = some rest := by
          simp [matchHere, matchM, hpc]
        simp only [subAllF, hm, if_pos (Nat.le_refl rest.length), List.nil_append]
        rw [ih rest hlen]
        simp [List.filter_cons, hpc]
      · have hm : matchHere (.cls p) (c :: rest) = none := by
          simp [matchHere, matchM, hpc]
        simp only [subAllF, hm]
        rw [ih rest hlen]
        simp [List.filter_cons, hpc]

/-! ### Claim theorems -/

/-- Claim C10: for every input, the output of `sanitize_input` contains
no `<` character — complete tags are deleted, every surviving `<` is
HTML-escaped, and the later pattern-stripping and whitespace-collapsing
steps only delete characters or insert spaces, so sanitized output can
never contain a raw HTML tag. -/
theorem sanitize_output_no_lt (s : String) : '<' ∉ (sanitizeInput s).data := by
  show '<' ∉ sanitizeList s.data
  unfold sanitizeList
  split_ifs with h
  · simp
  · intro hmem
    have h1 := mem_pyStrip hmem
    rcases mem_subAll h1 with hrep | h2
    · simp at hrep
    · exact htmlEscape_no_lt _ (mem_foldl_subAll _ _ _ h2)

/-- Claim C4 counterexample: sanitization is not idempotent — a lone
ampersand escapes to `&amp;`, which a second pass re-escapes to
`&amp;amp;`. -/
theorem sanitize_not_idempotent_counterexample :
    sanitizeInput (sanitizeInput "&") ≠ sanitizeInput "&" := by decide

/-- Claim C4 (amended): `sanitize` is not idempotent in general
(re-sanitizing escapes the `&` of previously produced escape sequences);
it is idempotent exactly on inputs it already leaves unchanged: if
`sanitize x = x` then `sanitize (sanitize x) = sanitize x`. -/
theorem sanitize_idempotent_on_fixed_points (x : String)
    (h : sanitizeInput x = x) :
    sanitizeInput (sanitizeInput x) = sanitizeInput x := by
  rw [h]
  exact h

/-- Witness for the amended C4 at the fixed point `"hello"`. -/
theorem sanitize_idempotent_on_fixed_points_witness :
    sanitizeInput "hello" = "hello" ∧
      sanitizeInput (sanitizeInput "hello") = sanitizeInput "hello" :=
  ⟨by rfl, sanitize_idempotent_on_fixed_points "hello" (by rfl)⟩

/-- Claim C7: `validate_message` fails closed — it accepts a message
exactly when the message is not empty/whitespace-only, is at most 5000
characters long, and sanitization leaves its stripped form unchanged. -/
theorem validateMessage_fails_closed (m : String) :
    validateMessage m = true ↔
      pyStrip m.data ≠ [] ∧ m.length ≤ maxMessageLength ∧
        sanitizeInput m = String.mk (pyStrip m.data) := by
  unfold validateMessage
  split_ifs with h1 h2 h3
  · simp [h1]
  · simp only [false_iff]
    rintro ⟨-, hlen, -⟩
    omega
  · simp only [false_iff]
    rintro ⟨-, -, hsan⟩
    exact h3 (by simpa [sanitizeInput] using congrArg String.data hsan)
  · simp only [true_iff]
    refine ⟨h1, by omega, ?_⟩
    unfold sanitizeInput
    exact congrArg String.mk (not_ne_iff.mp h3)

/-- Claim C5: sliding-window rate limiting — (1) with the ceiling's
worth of in-window recorded requests, the next admission check returns
`false`; (2) once strictly more than the window has elapsed since every
recorded request (user and, when given, origin), admission returns
`true` again; (3) the check itself never records: every per-key
timestamp list after the check is a sublist of the list before it;
(4) recording happens only through the separate record operation, which
appends the current timestamp. -/
theorem checkRateLimit_sliding_window (st : SecState) (now : ℚ) (uid : ℤ)
    (ip : Option String) :
    (maxRequestsPerHour ≤
        ((st.counts (userKey uid)).filter (fun t => t > now - rateLimitWindow)).length →
      (checkRateLimit st now uid ip).1 = false)
    ∧ ((∀ t ∈ st.counts (userKey uid), rateLimitWindow < now - t) →
       (∀ a, ip = some a → ∀ t ∈ st.counts (ipKey a), rateLimitWindow < now - t) →
        (checkRateLimit st now uid ip).1 = true)
    ∧ (∀ k, List.Sublist ((checkRateLimit st now uid ip).2.counts k) (st.counts k))
    ∧ (recordRequest st now uid ip).counts (userKey uid) =
        st.counts (userKey uid) ++ [now] :=
  ⟨checkRateLimit_user_full st now uid ip,
   checkRateLimit_expired st now uid ip,
   checkRateLimit_no_append st now uid ip,
   recordRequest_appends st now uid ip⟩

/-- Witness for C5: the saturated window is refused, the fresh state is
admitted. -/
theorem checkRateLimit_sliding_window_witness :
    (checkRateLimit stFull 0 1 none).1 = false ∧
      (checkRateLimit SecState.init 0 1 none).1 = true := by
  constructor
  · exact (checkRateLimit_sliding_window stFull 0 1 none).1 stFull_filter_full
  · refine (checkRateLimit_sliding_window SecState.init 0 1 none).2.1 ?_ ?_
    · intro t ht
      simp [SecState.init] at ht
    · intro a ha
      simp at ha

/-- Claim C6 counterexample: a message containing the denylisted pattern
`javascript:` three times scores 10, not 30 — the loop adds +10 per
denylist entry that matches at least once, not per occurrence — so the
call reports no suspicious activity and blocks nothing. -/
theorem suspicion_triple_occurrence_counterexample :
    suspScore SecState.init 0 "javascript:javascript:javascript:".data 1 = 10
    ∧ (detectSuspicious SecState.init 0 "javascript:javascript:javascript:" 1
        (some "203.0.113.7")).1 = false
    ∧ "203.0.113.7" ∉ (detectSuspicious SecState.init 0
        "javascript:javascript:javascript:" 1 (some "203.0.113.7")).2.blockedIps := by
  refine ⟨by rfl, by rfl, by decide⟩

/-- Claim C6 (amended): the suspicion score adds +10 per denylist entry
whose pattern occurs at least once in the raw message (occurrence
multiplicity in the message is irrelevant; the triplicated entries of
the source's list each count), plus the repetition and rapid-request
bonuses.  A message matching a triply-listed pattern — e.g. containing
`<link …>` — scores 30, which blocks the origin and reports suspicious
activity. -/
theorem suspicion_score_per_entry :
    (∀ (st : SecState) (now : ℚ) (msg : List Char) (uid : ℤ),
        suspScore st now msg uid =
          10 * suspiciousPatterns.countP (fun p => searchRE p msg)
            + (if (pySplit (msg.map lowerC)).length > 10 then
                 (if 10 * maxRep (pySplit (msg.map lowerC)) >
                     3 * (pySplit (msg.map lowerC)).length then 5 else 0) else 0)
            + (if ((st.counts (userKey uid)).filter (fun t => t > now - 60)).length > 10
                then 15 else 0))
    ∧ suspScore SecState.init 0 "<link a>".data 1 = 30
    ∧ (detectSuspicious SecState.init 0 "<link a>" 1 (some "203.0.113.7")).1 = true
    ∧ "203.0.113.7" ∈ (detectSuspicious SecState.init 0 "<link a>" 1
        (some "203.0.113.7")).2.blockedIps := by
  refine ⟨?_, by rfl, by rfl, by decide⟩
  intro st now msg uid
  simp only [suspScore, foldl_ten, Nat.zero_add]

/-- Claim C8 counterexample: `calculate` does not reject expressions
containing characters outside the whitelist — on `"2+a3"` it silently
drops the `a` and successfully evaluates the modified expression
`2+3`. -/
theorem calculate_claim_counterexample :
    "2+a3".data.any (fun c => !(isCalcAllowed c)) = true
    ∧ safeExpression "2+a3".data = "2+3".data
    ∧ calculate "2+a3" = "Calculation: 2+a3 = 5"
    ∧ calculate "2+a3" ≠ "Error calculating '2+a3': invalid expression" := by
  refine ⟨by decide, by rfl, by rfl, by decide⟩

/-- Claim C8 (amended): characters outside the whitelist are removed,
not rejected — the evaluated `safe_expression` is exactly the
whitelisted subsequence of the input, and an input containing a
disallowed character can still produce a successful calculation of the
modified expression. -/
theorem calculate_filters_not_rejects :
    (∀ e : String, safeExpression e.data = e.data.filter isCalcAllowed)
    ∧ calculate "2+a3" = "Calculation: 2+a3 = 5" := by
  refine ⟨?_, by rfl⟩
  intro e
  unfold safeExpression subAll
  rw [subAllF_cls_filter _ _ _ (Nat.le_refl _)]
  have hfn : (fun c => !(!(isCalcAllowed c))) = fun c => isCalcAllowed c := by
    funext c
    simp
  rw [hfn]

/-- Claim C9: tool execution never raises to the surrounding turn —
unknown names return the literal unknown-tool message, and a failing
evaluation inside `calculate` is caught and returned as a
human-readable error string. -/
theorem executeTool_total_spec :
    (∀ (web weather : String → String) (clock name : String) (args : ToolArgs),
        name ∉ toolNames →
        executeTool web weather clock name args = "Unknown tool: " ++ name)
    ∧ (∀ (web weather : String → String) (clock e : String),
        calcEval (safeExpression e.data) = none →
        executeTool web weather clock "calculate" { expression := some e } =
          "Error calculating '" ++ e ++ "': invalid expression") := by
  constructor
  · intro web weather clock name args h
    simp only [toolNames, List.mem_cons, List.not_mem_nil, or_false, not_or] at h
    obtain ⟨h1, h2, h3, h4⟩ := h
    simp [executeTool, h1, h2, h3, h4]
  · intro web weather clock e h
    simp [executeTool, calculate, h]

/-- Witness for C9: a concrete unknown name and a concrete failing
expression. -/
theorem executeTool_total_spec_witness :
    executeTool (fun q => q) (fun l => l) "t" "frobnicate" {} =
        "Unknown tool: frobnicate"
    ∧ executeTool (fun q => q) (fun l => l) "t" "calculate"
        { expression := some "2+" } =
        "Error calculating '2+': invalid expression" :=
  ⟨executeTool_total_spec.1 _ _ _ "frobnicate" {} (by decide),
   executeTool_total_spec.2 _ _ _ "2+" (by rfl)⟩

/-- Claim C1 counterexample: with one tool call requested in round 1
(usage 7) and a round-2 usage of 5, the returned `tokens_used` is 5 —
not the sum 12 — and no `tool`-role Turn is persisted (both rounds do
run). -/
theorem toolLoop_claim_counterexample :
    (orchProcessMessage storeOk clientOneTool toolExecConst "hi" [] none).tokensUsed =
        some 5
    ∧ (orchProcessMessage storeOk clientOneTool toolExecConst "hi" [] none).tokensUsed ≠
        some (7 + 5)
    ∧ (clientOneTool (buildMessages "hi" [] none) true).toolCalls.length = 1
    ∧ ((orchProcessMessage storeOk clientOneTool toolExecConst "hi" [] none).persisted.filter
        (fun t => t.role = "tool")).length = 0
    ∧ (orchProcessMessage storeOk clientOneTool toolExecConst "hi" [] none).invocations.length
        = 2 := by
  refine ⟨by rfl, by decide, by rfl, by rfl, by rfl⟩

/-- Claim C1 (amended): per-turn protocol — if the first response has no
tool calls, exactly one model invocation occurs, exactly two Turns
(user, assistant) are persisted, and the returned usage is that call's;
if it has k tool calls, exactly two invocations occur, the second is
given no tool catalogue, k `tool`-role messages are appended to the
model transcript between the rounds (but no `tool`-role Turn is
persisted — persisted Turns remain exactly user and assistant), and the
returned `tokens_used` is the second invocation's usage alone. -/
theorem toolLoop_two_round_protocol (client : ModelClient)
    (toolExec : String → String → String) (message : String)
    (history : List Msg) (context : Option String) :
    ((client (buildMessages message history context) true).toolCalls = [] →
      (orchProcessMessage storeOk client toolExec message history context).invocations =
          [⟨buildMessages message history context, true⟩]
      ∧ (orchProcessMessage storeOk client toolExec message history context).persisted.map
            Turn.role = ["user", "assistant"]
      ∧ (orchProcessMessage storeOk client toolExec message history context).tokensUsed =
          (client (buildMessages message history context) true).usage)
    ∧ ((client (buildMessages message history context) true).toolCalls ≠ [] →
      (orchProcessMessage storeOk client toolExec message history context).invocations =
          [⟨buildMessages message history context, true⟩,
           ⟨buildMessages message history context ++
              [⟨"assistant",
                 (client (buildMessages message history context) true).content.getD "",
                 none⟩] ++
              toolMsgsOf toolExec
                (client (buildMessages message history context) true).toolCalls,
            false⟩]
      ∧ (toolMsgsOf toolExec
            (client (buildMessages message history context) true).toolCalls).length =
          (client (buildMessages message history context) true).toolCalls.length
      ∧ (∀ mm ∈ toolMsgsOf toolExec
            (client (buildMessages message history context) true).toolCalls,
          mm.role = "tool")
      ∧ (orchProcessMessage storeOk client toolExec message history context).persisted.map
            Turn.role = ["user", "assistant"]
      ∧ (orchProcessMessage storeOk client toolExec message history context).tokensUsed =
          (client (buildMessages message history context ++
              [⟨"assistant",
                 (client (buildMessages message history context) true).content.getD "",
                 none⟩] ++
              toolMsgsOf toolExec
                (client (buildMessages message history context) true).toolCalls)
            false).usage) := by
  constructor
  · intro h
    simp [orchProcessMessage, storeOk, llmProcessMessage, h]
  · intro h
    refine ⟨?_, List.length_map _ _, ?_, ?_, ?_⟩
    · simp [orchProcessMessage, storeOk, llmProcessMessage, h]
    · intro mm hmm
      simp only [toolMsgsOf, List.mem_map] at hmm
      obtain ⟨tc, -, rfl⟩ := hmm
      rfl
    · simp [orchProcessMessage, storeOk, llmProcessMessage, h]
    · simp [orchProcessMessage, storeOk, llmProcessMessage, h]

/-- Witness for the amended C1, exercising both branches. -/
theorem toolLoop_two_round_protocol_witness :
    (orchProcessMessage storeOk clientNoTool toolExecConst "hi" [] none).invocations.length
        = 1
    ∧ (orchProcessMessage storeOk clientOneTool toolExecConst "hi" [] none).invocations.length
        = 2
    ∧ (orchProcessMessage storeOk clientOneTool toolExecConst "hi" [] none).tokensUsed =
        some 5 := by
  have h1 := (toolLoop_two_round_protocol clientNoTool toolExecConst "hi" [] none).1
    (by rfl)
  have h2 := (toolLoop_two_round_protocol clientOneTool toolExecConst "hi" [] none).2
    (by decide)
  refine ⟨?_, ?_, ?_⟩
  · rw [h1.1]
    rfl
  · rw [h2.1]
    rfl
  · rw [h2.2.2.2.2]
    rfl

/-- Claim C2 counterexample: a failing user-turn save is swallowed by
the orchestrator's blanket handler — the `/chat` endpoint returns a
successful conversational response carrying the apology text (with the
error recorded in a field the HTTP response does not expose), not a
hard failure. -/
theorem persistence_failure_claim_counterexample :
    (chatEndpoint storeFailUser clientPlain toolExecConst SecState.init 0 1
        (some "198.51.100.9") "hello" [] none).result =
      Except.ok { message := fallbackText, error := some "db down" }
    ∧ (orchProcessMessage storeFailUser clientPlain toolExecConst "hello" [] none).message =
        fallbackText := by
  exact ⟨by rfl, by rfl⟩

/-- Claim C2 (amended): SessionStore failures are not fatal — whichever
store operation fails (user-turn save, assistant-turn save, or the
final session touch), the orchestrator catches the exception and
returns the fallback conversational response with the error text in the
`error` field; turns persisted before the failure remain recorded and no
exception reaches the caller. -/
theorem persistence_failure_absorbed (store : StoreBehavior)
    (client : ModelClient) (toolExec : String → String → String)
    (message : String) (history : List Msg) (context : Option String)
    (e : String) :
    (store.saveUser = .error e →
      orchProcessMessage store client toolExec message history context =
        { message := fallbackText, error := some e })
    ∧ (store.saveUser = .ok () → store.saveAssistant = .error e →
      (orchProcessMessage store client toolExec message history context).message =
          fallbackText
      ∧ (orchProcessMessage store client toolExec message history context).error = some e
      ∧ (orchProcessMessage store client toolExec message history context).persisted =
          [{ role := "user", content := message }])
    ∧ (store.saveUser = .ok () → store.saveAssistant = .ok () →
       store.touchSession = .error e →
      (orchProcessMessage store client toolExec message history context).message =
          fallbackText
      ∧ (orchProcessMessage store client toolExec message history context).error = some e
      ∧ (orchProcessMessage store client toolExec message history context).persisted.map
            Turn.role = ["user", "assistant"]) := by
  refine ⟨?_, ?_, ?_⟩
  · intro h1
    simp [orchProcessMessage, h1]
  · intro h1 h2
    simp [orchProcessMessage, h1, h2]
  · intro h1 h2 h3
    simp [orchProcessMessage, h1, h2, h3]

/-- Witness for the amended C2 at a store failing on the user-turn
save. -/
theorem persistence_failure_absorbed_witness :
    orchProcessMessage storeFailUser clientPlain toolExecConst "hello" [] none =
      { message := fallbackText, error := some "db down" } :=
  (persistence_failure_absorbed storeFailUser clientPlain toolExecConst
    "hello" [] none "db down").1 (by rfl)

/-- Claim C3 counterexample: with user 1's window already saturated
(admission would return `false`), a valid message on the WebSocket path
still persists a user and an assistant Turn — the live-connection path
never consults the RateGate. -/
theorem rateGate_ws_bypass_counterexample :
    (checkRateLimit stFull 0 1 none).1 = false
    ∧ (wsHandleMessage storeOk clientPlain toolExecConst stFull "hello" []
        none).persisted.map Turn.role = ["user", "assistant"] := by
  exact ⟨checkRateLimit_user_full stFull 0 1 none stFull_filter_full, by rfl⟩

/-- Claim C3 (amended): only the synchronous `/chat` path admits or
rejects through the RateGate before the orchestrator — a refused
admission yields HTTP 429 with nothing persisted, and anything persisted
on that path implies the admission check returned `true` — while the
WebSocket path's handling of a message event is completely independent
of the rate-limit state (it performs only validation and
sanitization). -/
theorem rateGate_rest_only (store : StoreBehavior) (client : ModelClient)
    (toolExec : String → String → String) (st st' : SecState) (now : ℚ)
    (uid : ℤ) (ip : Option String) (message : String) (history : List Msg)
    (context : Option String) :
    ((match ip with | some a => isIpBlocked st a | none => false) = false →
      validateMessage message = true →
      (checkRateLimit st now uid ip).1 = false →
      (chatEndpoint store client toolExec st now uid ip message history context).result =
          .error .tooMany429
      ∧ (chatEndpoint store client toolExec st now uid ip message history
          context).persisted = [])
    ∧ ((chatEndpoint store client toolExec st now uid ip message history
          context).persisted ≠ [] →
        (checkRateLimit st now uid ip).1 = true)
    ∧ wsHandleMessage store client toolExec st message history context =
        wsHandleMessage store client toolExec st' message history context := by
  refine ⟨?_, ?_, rfl⟩
  · intro hb hv hr
    constructor
    · simp [chatEndpoint, hb, hv, hr]
    · simp [chatEndpoint, hb, hv, hr]
  · intro hp
    by_contra hfalse
    rw [Bool.not_eq_true] at hfalse
    unfold chatEndpoint at hp
    split_ifs at hp with hb hv <;>
      first
      | exact hp rfl
      | (simp only [hfalse, Bool.false_eq_true, not_false_eq_true, if_true] at hp
         exact hp rfl)

/-- Witness for the amended C3: the saturated state is refused on the
REST path before anything is persisted. -/
theorem rateGate_rest_only_witness :
    (chatEndpoint storeOk clientPlain toolExecConst stFull 0 1 none "hello" []
        none).result = .error .tooMany429
    ∧ (chatEndpoint storeOk clientPlain toolExecConst stFull 0 1 none "hello" []
        none).persisted = [] := by
  have h := (rateGate_rest_only storeOk clientPlain toolExecConst stFull stFull
    0 1 none "hello" [] none).1 (by rfl) (by rfl)
    (checkRateLimit_user_full stFull 0 1 none stFull_filter_full)
  exact ⟨h.1, h.2⟩

end Chat

section SanityChecks
open Chat

example : sanitizeInput "&" = "&amp;" := by rfl
example : sanitizeInput "&amp;" = "&amp;amp;" := by rfl
example : sanitizeInput "hello" = "hello" := by rfl
example : sanitizeInput "<b>x</b>" = "x" := by rfl
example : searchRE (reOpenTag "link".data) "<link a>".data = true := by rfl
example : searchRE (Chat.RE.lit "javascript:".data) "JavaScript:".data = true := by rfl
example : calculate "2+a3" = "Calculation: 2+a3 = 5" := by rfl
example : calculate "2*(3+4)" = "Calculation: 2*(3+4) = 14" := by rfl
example : calculate "2+" = "Error calculating '2+': invalid expression" := by rfl
example : calculate "1/0" = "Error calculating '1/0': invalid expression" := by rfl
example : (detectSuspicious SecState.init 0 "<link a>" 1 (some "9.9.9.9")).1 = true := by rfl
example : (detectSuspicious SecState.init 0 "javascript:javascript:javascript:" 1 (some "9.9.9.9")).1 = false := by rfl
example : suspScore SecState.init 0 "<link a>".data 1 = 30 := by rfl
example : suspScore SecState.init 0 "javascript:javascript:javascript:".data 1 = 10 := by rfl

end SanityChecks
